import Mathlib

/-!
Verification development for the `py_wappalyzer` detection engine.

The definitions below are a shallow embedding of the Python sources
`py_wappalyzer/har.py` (the SignalExtractor, `parse_har_file`) and
`py_wappalyzer/analyzer.py` (the PatternMatcher / DetectionEngine,
`TechDetector` and `detect_technologies`).

Modelling conventions:
* Python's dynamically-typed JSON values are the inductive `Json`
  (numbers as `Int`; floats do not occur in the claims under study).
* Python dictionaries are insertion-ordered association lists; assignment
  to an existing key overwrites in place, as in CPython.
* Raising Python code is embedded in `Except String`; the error string is a
  mnemonic for the exception class (the exact message is not modelled).
* The regex engine (`re.compile`/`re.search` with `re.IGNORECASE`) is an
  explicit parameter `RegexEngine`: compiling a pattern either fails
  (`re.error`) or yields a search function returning, on a match, the tuple
  `match.groups()` as a list of `Option String` (`none` = group did not
  participate).  Case-insensitivity is internal to the engine parameter.
* The two HTML parsers (`lxml`, `html.parser` via BeautifulSoup) are
  explicit parameters `String → Option HtmlDoc`; `none` models the parser
  raising.
-/

namespace PyWap

/-- Model of a decoded JSON / dynamically typed Python value. -/
inductive Json where
  | null
  | bool (b : Bool)
  | num (n : Int)
  | str (s : String)
  | arr (xs : List Json)
  | obj (kvs : List (String × Json))

mutual
/-- Structural equality on `Json`, modelling Python `==` on JSON-shaped
values (used for `set` membership when deduplicating script entries). -/
def jsonBeq : Json → Json → Bool
  | .null, .null => true
  | .bool a, .bool b => a == b
  | .num a, .num b => a == b
  | .str a, .str b => a == b
  | .arr xs, .arr ys => jsonBeqList xs ys
  | .obj xs, .obj ys => jsonBeqKvs xs ys
  | _, _ => false

/-- Elementwise `jsonBeq` on lists. -/
def jsonBeqList : List Json → List Json → Bool
  | [], [] => true
  | x :: xs, y :: ys => jsonBeq x y && jsonBeqList xs ys
  | _, _ => false

/-- Elementwise `jsonBeq` on key-value lists. -/
def jsonBeqKvs : List (String × Json) → List (String × Json) → Bool
  | [], [] => true
  | (k1, v1) :: xs, (k2, v2) :: ys => k1 == k2 && jsonBeq v1 v2 && jsonBeqKvs xs ys
  | _, _ => false
end

/-- Python truthiness of a JSON-shaped value. -/
def pyTruthy : Json → Bool
  | .null => false
  | .bool b => b
  | .num n => n != 0
  | .str s => s ≠ ""
  | .arr xs => !xs.isEmpty
  | .obj kvs => !kvs.isEmpty

/-- Python `x or d` for JSON-shaped values. -/
def orElseJ (v d : Json) : Json := if pyTruthy v then v else d

/-- Lookup in an association list with string keys (Python dict lookup). -/
def alistGet {α : Type} (l : List (String × α)) (k : String) : Option α :=
  (l.find? (fun kv => kv.1 == k)).map (fun kv => kv.2)

/-- Python `d[k] = v` on an insertion-ordered dict with string keys:
overwrites in place, otherwise appends. -/
def dictSetStr {α : Type} (kvs : List (String × α)) (k : String) (v : α) :
    List (String × α) :=
  match kvs with
  | [] => [(k, v)]
  | (k0, v0) :: rest =>
      if k0 = k then (k0, v) :: rest else (k0, v0) :: dictSetStr rest k v

/-- Python `d[k] = v` on a dict with arbitrary (JSON-shaped) keys. -/
def dictSetJ (kvs : List (Json × Json)) (k : Json) (v : Json) :
    List (Json × Json) :=
  match kvs with
  | [] => [(k, v)]
  | (k0, v0) :: rest =>
      if jsonBeq k0 k then (k0, v) :: rest else (k0, v0) :: dictSetJ rest k v

/-- Python `x.get(k, d)` where `x` is JSON-shaped: a dict returns the value
or the default, every other type raises `AttributeError`. -/
def pyGetD (j : Json) (k : String) (d : Json) : Except String Json :=
  match j with
  | .obj kvs => .ok ((alistGet kvs k).getD d)
  | _ => .error "AttributeError"

/-- Coerce to a string for a string-method call (`.lower()` etc.);
non-strings raise `AttributeError`. -/
def asStringAttr : Json → Except String String
  | .str s => .ok s
  | _ => .error "AttributeError"

/-- Python iteration over a JSON-shaped value: lists yield their elements,
strings their characters, dicts their keys; other types raise `TypeError`. -/
def pyIter : Json → Except String (List Json)
  | .arr xs => .ok xs
  | .str s => .ok (s.data.map fun c => Json.str (String.singleton c))
  | .obj kvs => .ok (kvs.map fun kv => Json.str kv.1)
  | _ => .error "TypeError"

/-- Python `x[0]`: lists/strings index, dicts raise `KeyError` (unless `0`
is a key, which cannot happen for string-keyed JSON), others `TypeError`. -/
def pyIndexZero : Json → Except String Json
  | .arr (x :: _) => .ok x
  | .arr [] => .error "IndexError"
  | .str s =>
      match s.data with
      | c :: _ => .ok (Json.str (String.singleton c))
      | [] => .error "IndexError"
  | .obj _ => .error "KeyError"
  | _ => .error "TypeError"

/-- ASCII lower-casing, modelling Python `.lower()` on the ASCII data the
fingerprint files contain. -/
def lowerStr (s : String) : String := String.mk (s.data.map Char.toLower)

/-- ASCII upper-casing, modelling Python `.upper()`. -/
def upperStr (s : String) : String := String.mk (s.data.map Char.toUpper)

/-- Python `s.endswith(suffix)`. -/
def strEndsWith (s suffix : String) : Bool := suffix.data.isSuffixOf s.data

/-- Containment of `n` as a contiguous sublist of `h`. -/
def listInfix (n h : List Char) : Bool :=
  match h with
  | [] => n.isEmpty
  | _ :: rest => n.isPrefixOf h || listInfix n rest

/-- Substring test, modelling Python `needle in hay`. -/
def strContains (hay needle : String) : Bool :=
  listInfix needle.data hay.data

/-- Python `x == "lit"` for a JSON-shaped `x`: only equal strings compare
equal. -/
def jEqStr (j : Json) (lit : String) : Bool :=
  match j with
  | .str s => s = lit
  | _ => false

/-- Truthiness of an optional string attribute (absent or empty is falsy). -/
def optTruthy : Option String → Bool
  | some s => s ≠ ""
  | none => false

/-- Value of the base64 alphabet character, if any. -/
def b64Val (c : Char) : Option Nat :=
  if 'A' ≤ c ∧ c ≤ 'Z' then some (c.toNat - 65)
  else if 'a' ≤ c ∧ c ≤ 'z' then some (c.toNat - 71)
  else if '0' ≤ c ∧ c ≤ '9' then some (c.toNat + 4)
  else if c = '+' then some 62
  else if c = '/' then some 63
  else none

/-- Decode a list of base64 sextets into bytes (complete quads give three
bytes; a final pair gives one byte, a final triple two). -/
def b64Quads : List Nat → List Nat
  | a :: b :: c :: d :: rest =>
      (a * 4 + b / 16) :: ((b % 16) * 16 + c / 4) :: ((c % 4) * 64 + d) ::
        b64Quads rest
  | [a, b] => [a * 4 + b / 16]
  | [a, b, c] => [a * 4 + b / 16, (b % 16) * 16 + c / 4]
  | _ => []

/-- Model of `base64.b64decode` on a `str` argument (CPython legacy mode):
non-ASCII input raises; characters outside the alphabet are discarded; the
data before the first `=` must leave a remainder of 0, 2 (two pads needed)
or 3 (one pad needed) modulo 4, otherwise `binascii.Error` is raised.
`none` models the raise.  (Degenerate paddings interleaved with further
alphabet characters are beyond the inputs exercised here.) -/
def b64decode (s : String) : Option (List Nat) :=
  if s.data.any (fun c => 127 < c.toNat) then none
  else
    let cs := s.data.filter (fun c => (b64Val c).isSome ∨ c = '=')
    let dat := cs.takeWhile (fun c => c ≠ '=')
    let pads := (cs.drop dat.length).length
    let sextets := dat.filterMap b64Val
    if sextets.length % 4 = 0 then some (b64Quads sextets)
    else if sextets.length % 4 = 1 then none
    else if sextets.length % 4 = 2 then
      if 2 ≤ pads then some (b64Quads sextets) else none
    else if 1 ≤ pads then some (b64Quads sextets) else none

/-- Second-byte range admitted after a given UTF-8 lead byte. -/
def utf8SecondRange (b : Nat) : Nat × Nat :=
  if b = 0xE0 then (0xA0, 0xBF)
  else if b = 0xED then (0x80, 0x9F)
  else if b = 0xF0 then (0x90, 0xBF)
  else if b = 0xF4 then (0x80, 0x8F)
  else (0x80, 0xBF)

/-- Single UTF-8 decode step at lead byte `b` with remaining bytes `bs`:
returns the decoded character (or `none` for a maximal ill-formed subpart)
and the number of additional bytes consumed beyond the lead. -/
def utf8Step (b : Nat) (bs : List Nat) : Option Char × Nat :=
  if b < 0x80 then (some (Char.ofNat b), 0)
  else if 0xC2 ≤ b ∧ b ≤ 0xDF then
    match bs with
    | b2 :: _ =>
      if 0x80 ≤ b2 ∧ b2 ≤ 0xBF then
        (some (Char.ofNat ((b - 0xC0) * 64 + (b2 - 0x80))), 1)
      else (none, 0)
    | [] => (none, 0)
  else if 0xE0 ≤ b ∧ b ≤ 0xEF then
    match bs with
    | b2 :: b3 :: _ =>
      if (utf8SecondRange b).1 ≤ b2 ∧ b2 ≤ (utf8SecondRange b).2 then
        if 0x80 ≤ b3 ∧ b3 ≤ 0xBF then
          (some (Char.ofNat ((b - 0xE0) * 4096 + (b2 - 0x80) * 64 + (b3 - 0x80))), 2)
        else (none, 1)
      else (none, 0)
    | [b2] =>
      if (utf8SecondRange b).1 ≤ b2 ∧ b2 ≤ (utf8SecondRange b).2 then (none, 1)
      else (none, 0)
    | [] => (none, 0)
  else if 0xF0 ≤ b ∧ b ≤ 0xF4 then
    match bs with
    | b2 :: b3 :: b4 :: _ =>
      if (utf8SecondRange b).1 ≤ b2 ∧ b2 ≤ (utf8SecondRange b).2 then
        if 0x80 ≤ b3 ∧ b3 ≤ 0xBF then
          if 0x80 ≤ b4 ∧ b4 ≤ 0xBF then
            (some (Char.ofNat ((b - 0xF0) * 262144 + (b2 - 0x80) * 4096 +
                (b3 - 0x80) * 64 + (b4 - 0x80))), 3)
          else (none, 2)
        else (none, 1)
      else (none, 0)
    | [b2, b3] =>
      if (utf8SecondRange b).1 ≤ b2 ∧ b2 ≤ (utf8SecondRange b).2 then
        if 0x80 ≤ b3 ∧ b3 ≤ 0xBF then (none, 2) else (none, 1)
      else (none, 0)
    | [b2] =>
      if (utf8SecondRange b).1 ≤ b2 ∧ b2 ≤ (utf8SecondRange b).2 then (none, 1)
      else (none, 0)
    | [] => (none, 0)
  else (none, 0)

/-- Fuelled worker for UTF-8 decoding; each iteration consumes at least the
lead byte, so fuel equal to the byte count is always sufficient. -/
def utf8GoF (repl : List Char) : Nat → List Nat → List Char
  | _, [] => []
  | 0, _ => []
  | fuel + 1, b :: bs =>
    match utf8Step b bs with
    | (some c, k) => c :: utf8GoF repl fuel (bs.drop k)
    | (none, k) => repl ++ utf8GoF repl fuel (bs.drop k)

/-- UTF-8 decoding with an error handler: each maximal subpart of an
ill-formed subsequence contributes `repl` (empty for `errors="ignore"`,
`U+FFFD` for `errors="replace"`), as CPython's decoder does. -/
def utf8Go (repl : List Char) (bs : List Nat) : List Char :=
  utf8GoF repl bs.length bs

/-- Python `bytes.decode("utf-8", errors="ignore")`: invalid subsequences
are dropped. -/
def utf8DecodeIgnore (bs : List Nat) : String :=
  String.mk (utf8Go [] bs)

/-- Python `bytes.decode("utf-8", errors="replace")`: invalid subsequences
become `U+FFFD`. -/
def utf8DecodeReplace (bs : List Nat) : String :=
  String.mk (utf8Go [Char.ofNat 0xFFFD] bs)

/-- A `<script>` tag as surfaced by BeautifulSoup: its `src` attribute (if
present) and its `.string` contents (if any). -/
structure ScriptTag where
  src : Option String
  text : Option String
deriving DecidableEq

/-- A `<meta>` tag's relevant attributes as surfaced by BeautifulSoup. -/
structure MetaTag where
  nameAttr : Option String
  property : Option String
  httpEquiv : Option String
  content : Option String
deriving DecidableEq

/-- A parsed HTML document (the BeautifulSoup result restricted to the
queries the sources perform: `find_all("script")` and `find_all("meta")`). -/
structure HtmlDoc where
  scriptTags : List ScriptTag
  metaTags : List MetaTag
deriving DecidableEq

/-- An HTML parser strategy: `none` models the parser raising. -/
def HtmlParser : Type := String → Option HtmlDoc

/-- Normalised output of `parse_har_file` (har.py).  Python stores whatever
JSON value it found for `url`, the body text and header/cookie values, so
those fields are JSON-shaped; script entries are JSON-shaped because a
non-string request url can be appended verbatim. -/
structure HarBundle where
  url : Json
  html : Json
  headers : List (String × Json)
  cookies : List (Json × Json)
  scripts : List Json
  meta : List (String × String)

/-- The all-empty bundle `EMPTY_HAR_RESULT` (har.py lines 19-26). -/
def emptyHarBundle : HarBundle :=
  { url := .str "", html := .str "", headers := [], cookies := [],
    scripts := [], meta := [] }

/-- Whether a content `encoding` field equals the string `"base64"`. -/
def isB64Encoding (j : Json) : Bool := jEqStr j "base64"

/-- Body-text handling of har.py lines 92-96 for a string body: when base64
is declared, decode and UTF-8-decode with `errors="ignore"`; a decoding
failure is swallowed (`except Exception: pass`) leaving the text as-is. -/
def decodeHarText (isB64 : Bool) (s : String) : String :=
  if isB64 then
    match b64decode s with
    | some bytes => utf8DecodeIgnore bytes
    | none => s
  else s

/-- Condition of the main-entry generator (har.py lines 55-63):
`"html" in e.get("response", {}).get("content", {}).get("mimeType", "").lower()`.
Non-dict steps raise `AttributeError`, as does `.lower()` on a non-string. -/
def entryIsHtml (e : Json) : Except String Bool := do
  let resp ← pyGetD e "response" (.obj [])
  let cont ← pyGetD resp "content" (.obj [])
  let mt ← pyGetD cont "mimeType" (.str "")
  let s ← asStringAttr mt
  return strContains (lowerStr s) "html"

/-- Lazy `next(generator, default)` over the entries: scans until the first
entry satisfying `entryIsHtml`, propagating any exception raised while
scanning; entries after the first hit are not examined. -/
def findMainEntry (dflt : Json) : List Json → Except String Json
  | [] => .ok dflt
  | e :: rest => do
    if (← entryIsHtml e) then return e else findMainEntry dflt rest

/-- Header accumulation (har.py lines 71-77): the name is lower-cased (so a
non-string truthy name raises `AttributeError`), the value is kept as-is
with falsy values replaced by `""`; empty names are skipped and duplicate
names overwrite (last occurrence wins). -/
def addHeader (acc : List (String × Json)) (h : Json) :
    Except String (List (String × Json)) := do
  let nmJ ← pyGetD h "name" .null
  let nm ← asStringAttr (orElseJ nmJ (.str ""))
  let nm := lowerStr nm
  let vJ ← pyGetD h "value" .null
  let v := orElseJ vJ (.str "")
  if nm = "" then return acc else return dictSetStr acc nm v

/-- Cookie accumulation (har.py lines 80-86): any truthy name is accepted as
a key; a falsy value is stored as `""`. -/
def addCookie (acc : List (Json × Json)) (c : Json) :
    Except String (List (Json × Json)) := do
  let nm ← pyGetD c "name" .null
  let v ← pyGetD c "value" .null
  if pyTruthy nm then return dictSetJ acc nm (orElseJ v (.str "")) else return acc

/-- Script-candidate contribution of one entry (har.py lines 100-106):
the request url when the response mime type contains "javascript" or the
url ends in ".js".  `.lower()` on a non-string mime and `.endswith` on a
non-string url raise, in that evaluation order. -/
def scriptUrlOf (e : Json) : Except String (Option Json) := do
  let req ← pyGetD e "request" (.obj [])
  let urlJ ← pyGetD req "url" (.str "")
  let urlJ := orElseJ urlJ (.str "")
  let resp ← pyGetD e "response" (.obj [])
  let cont ← pyGetD resp "content" (.obj [])
  let mtJ ← pyGetD cont "mimeType" (.str "")
  let mt ← asStringAttr (orElseJ mtJ (.str ""))
  if strContains (lowerStr mt) "javascript" then return some urlJ
  else
    match urlJ with
    | .str u => if strEndsWith u ".js" then return some (.str u) else return none
    | _ => .error "AttributeError"

/-- The meta key of a tag: `tag.get("name") or tag.get("property") or
tag.get("http-equiv")` (falsy chain). -/
def metaKey (m : MetaTag) : Option String :=
  if optTruthy m.nameAttr then m.nameAttr
  else if optTruthy m.property then m.property
  else m.httpEquiv

/-- Meta accumulation (har.py lines 115-121): tags with a truthy name-like
attribute and truthy content contribute; duplicates overwrite. -/
def addMeta (acc : List (String × String)) (m : MetaTag) :
    List (String × String) :=
  match metaKey m with
  | some k =>
    if k ≠ "" ∧ optTruthy m.content then dictSetStr acc k (m.content.getD "")
    else acc
  | none => acc

/-- Inline-script accumulation (har.py lines 123-125): script tags without a
truthy `src` but with a truthy `.string` contribute the first 500
characters of that string. -/
def addInline (acc : List String) (t : ScriptTag) : List String :=
  if ¬ optTruthy t.src ∧ optTruthy t.text then acc ++ [(t.text.getD "").take 500]
  else acc

/-- Order-preserving deduplication by Python equality (har.py lines 127-134). -/
def dedupeJson (l : List Json) : List Json :=
  l.foldl (fun acc x => if acc.any (fun y => jsonBeq y x) then acc else acc ++ [x]) []

/-- Shallow embedding of `parse_har_file` (har.py).  The `input` is the
outcome of the guarded read-and-JSON-decode block: `none` models any
exception there (missing file, bad JSON), which the source catches and
converts to the empty bundle.  Everything after that block is outside the
`try`, so structural surprises in the decoded value raise: those are the
`.error` outcomes.  `P1`/`P2` are the `lxml` and `html.parser` strategies;
in this function only the second parser's failure propagates. -/
def parseHarFile (P1 P2 : HtmlParser) (input : Option Json) :
    Except String HarBundle :=
  match input with
  | none => .ok emptyHarBundle
  | some har => do
    let logJ ← pyGetD har "log" (.obj [])
    let entriesJ ← pyGetD logJ "entries" (.arr [])
    if ¬ pyTruthy entriesJ then return emptyHarBundle
    else do
      let dflt ← pyIndexZero entriesJ
      let entries ← pyIter entriesJ
      let mainEntry ← findMainEntry dflt entries
      let requestObj ← pyGetD mainEntry "request" (.obj [])
      let responseObj ← pyGetD mainEntry "response" (.obj [])
      let urlJ ← pyGetD requestObj "url" (.str "")
      let url := orElseJ urlJ (.str "")
      let hdrsJ ← pyGetD responseObj "headers" (.arr [])
      let hdrItems ← pyIter hdrsJ
      let headers ← hdrItems.foldlM addHeader []
      let cksJ ← pyGetD responseObj "cookies" (.arr [])
      let ckItems ← pyIter cksJ
      let cookies ← ckItems.foldlM addCookie []
      let content ← pyGetD responseObj "content" (.obj [])
      let textJ0 ← pyGetD content "text" (.str "")
      let textJ := orElseJ textJ0 (.str "")
      let html ←
        if pyTruthy textJ then
          match textJ with
          | .str s => do
            let encJ ← pyGetD content "encoding" .null
            pure (Json.str (decodeHarText (isB64Encoding encJ) s))
          | _ =>
            -- a truthy non-string body: `base64.b64decode` (if attempted)
            -- raises `TypeError`, which the bare `except` swallows, so the
            -- value is stored unchanged
            pure textJ
        else pure (Json.str "")
      let scriptUrls ← entries.foldlM
        (fun acc e => do
          match (← scriptUrlOf e) with
          | some u => pure (acc ++ [u])
          | none => pure acc) []
      let metaInline ←
        if pyTruthy html then
          match html with
          | .str h =>
            match P1 h with
            | some doc =>
              pure (doc.metaTags.foldl addMeta [], doc.scriptTags.foldl addInline [])
            | none =>
              match P2 h with
              | some doc =>
                pure (doc.metaTags.foldl addMeta [], doc.scriptTags.foldl addInline [])
              | none => Except.error "HTMLParserError"
          | _ => Except.error "TypeError"
        else pure ([], [])
      let scripts := dedupeJson (scriptUrls ++ metaInline.2.map Json.str)
      return { url := url, html := html, headers := headers, cookies := cookies,
               scripts := scripts, meta := metaInline.1 }

/-- Left-to-right non-overlapping replacement of `pat` by `rep` (CPython
`str.replace`), fuelled by the subject length (each step consumes at least
one character when `pat` is non-empty). -/
def replaceFuel (pat rep : List Char) : Nat → List Char → List Char
  | _, [] => []
  | 0, s => s
  | fuel + 1, c :: cs =>
    if pat ≠ [] ∧ pat.isPrefixOf (c :: cs) then
      rep ++ replaceFuel pat rep fuel ((c :: cs).drop pat.length)
    else c :: replaceFuel pat rep fuel cs

/-- Python `s.replace(pat, rep)` for a non-empty `pat` (the patterns used by
the analyzer, `"\\" ++ digits`, are never empty; an empty `pat` is mapped to
the identity, outside the behaviour exercised here). -/
def strReplace (s pat rep : String) : String :=
  if pat = "" then s else String.mk (replaceFuel pat.data rep.data s.data.length s.data)

/-- Result of searching one compiled regex in a text: `none` is no match; a
match carries `match.groups()` as a list (`none` entries are groups that did
not participate). -/
def RegexSearch : Type := String → Option (List (Option String))

/-- The regex engine: compiling a pattern either fails (`re.error`) or
yields a search function.  Case-insensitive search is internal to the
engine value. -/
def RegexEngine : Type := String → Option RegexSearch

/-- Character-level worker for `_strip_wappalyzer_pattern` (analyzer.py
lines 190-192), i.e. `re.sub(r"\\;.*$", "", pattern)` with default flags:
`.*` stops at a newline and `$` matches only at the end of the string or
just before a final newline, so the suffix after `\;` is removed only when
it contains no newline (a single trailing newline is kept). -/
def stripFrom : List Char → List Char
  | [] => []
  | '\\' :: ';' :: rest =>
    if rest.contains '\n' then
      if rest.dropLast.contains '\n' then '\\' :: ';' :: stripFrom rest
      else ['\n']
    else []
  | c :: cs => c :: stripFrom cs

/-- `TechDetector._strip_wappalyzer_pattern` (analyzer.py lines 190-192). -/
def stripWappalyzerPattern (p : String) : String :=
  String.mk (stripFrom p.data)

/-- A pattern specification as stored in the technology table: a single
regex string, a list of them, or an ordered mapping from regex to version
template.  (Other JSON shapes hit `_check_pattern`'s final `isinstance`
guard, returning `False`, or raise in `_check_pattern_with_version`; no
claim exercises them and they are outside this model.) -/
inductive Patterns where
  | pstr (s : String)
  | plist (l : List String)
  | pdict (l : List (String × String))
deriving DecidableEq

/-- Python falsiness of a pattern spec (`not patterns`). -/
def patFalsy : Patterns → Bool
  | .pstr s => s = ""
  | .plist l => l.isEmpty
  | .pdict l => l.isEmpty

/-- The shared pattern loop of `_check_pattern` and the list branch of
`_check_pattern_with_version`: strip each pattern, skip invalid regexes
(`except re.error: continue`), succeed on the first search hit. -/
def goPatternList (E : RegexEngine) (text : String) : List String → Bool
  | [] => false
  | p :: rest =>
    match E (stripWappalyzerPattern p) with
    | none => goPatternList E text rest
    | some rx =>
      match rx text with
      | some _ => true
      | none => goPatternList E text rest

/-- `TechDetector._check_pattern` (analyzer.py lines 194-212). -/
def checkPattern (E : RegexEngine) (text : String) (patterns : Patterns) : Bool :=
  if text = "" ∨ patFalsy patterns then false
  else
    match patterns with
    | .pstr s => goPatternList E text [s]
    | .pdict l => goPatternList E text (l.map Prod.fst)
    | .plist l => goPatternList E text l

/-- The version-template substitution of analyzer.py lines 227-230: for each
group index i (from 1, over all groups), when the group participated and is
non-empty, replace every occurrence of the token `\i` in the accumulated
string by the group text.  The replacement is sequential, so text introduced
by an earlier substitution can itself be rewritten by a later one. -/
def applyVersionTemplate (template : String) (groups : List (Option String)) :
    String :=
  groups.enum.foldl
    (fun v ig =>
      match ig.2 with
      | some g => if g ≠ "" then strReplace v ("\\" ++ toString (ig.1 + 1)) g else v
      | none => v)
    template

/-- The dict branch of `_check_pattern_with_version` (analyzer.py lines
218-233): entries are consulted in declared order; an invalid regex is
skipped; the first match wins and later entries are never consulted. -/
def goVersioned (E : RegexEngine) (text : String) :
    List (String × String) → Bool × Option String
  | [] => (false, none)
  | (p, vinfo) :: rest =>
    match E (stripWappalyzerPattern p) with
    | none => goVersioned E text rest
    | some rx =>
      match rx text with
      | none => goVersioned E text rest
      | some groups =>
        if groups ≠ [] ∧ vinfo ≠ "" then
          (true, some (applyVersionTemplate vinfo groups))
        else (true, none)

/-- `TechDetector._check_pattern_with_version` (analyzer.py lines 214-245). -/
def checkPatternWithVersion (E : RegexEngine) (text : String)
    (patterns : Patterns) : Bool × Option String :=
  if text = "" ∨ patFalsy patterns then (false, none)
  else
    match patterns with
    | .pdict l => goVersioned E text l
    | .pstr s => (goPatternList E text [s], none)
    | .plist l => (goPatternList E text l, none)

/-- One technology's fingerprint entry, with the per-signal-type pattern
specs the detector consults (`cats` is the category id list). -/
structure TechData where
  url : Option Patterns := none
  html : Option Patterns := none
  scripts : Option Patterns := none
  headers : Option (List (String × Patterns)) := none
  cookies : Option (List (String × Patterns)) := none
  meta : Option (List (String × Patterns)) := none
  dns : Option (List (String × Patterns)) := none
  certIssuer : Option Patterns := none
  cats : List Nat := []
deriving DecidableEq

/-- The normalized inputs of `TechDetector.analyze` (dicts as
insertion-ordered association lists). -/
structure SignalBundle where
  url : String := ""
  html : String := ""
  headers : List (String × String) := []
  cookies : List (String × String) := []
  scripts : List String := []
  meta : List (String × String) := []
  dns : List (String × List String) := []
  certIssuer : String := ""
deriving DecidableEq

/-- The soup built once per analyze call (analyzer.py lines 84-91): try the
parsers in order, swallowing failures; no soup when the html is empty or
both parsers fail. -/
def computeSoup (P1 P2 : HtmlParser) (html : String) : Option HtmlDoc :=
  if html = "" then none
  else
    match P1 html with
    | some d => some d
    | none => P2 html

/-- Source urls of src-bearing script tags (`soup.find_all("script",
src=True)` with `tag.get("src", "") or ""`). -/
def soupScriptSrcs (d : HtmlDoc) : List String :=
  (d.scriptTags.filter (fun t => t.src.isSome)).map (fun t => t.src.getD "")

/-- Header lookup of analyzer.py lines 134-139: the exact name, else the
lower-cased name, else `""` (falsy chain). -/
def headerValue (hs : List (String × String)) (name : String) : String :=
  let v1 := (alistGet hs name).getD ""
  if v1 ≠ "" then v1 else (alistGet hs (lowerStr name)).getD ""

/-- Pointwise concatenation of (labels, versions) accumulators. -/
def pairApp (a b : List String × List String) : List String × List String :=
  (a.1 ++ b.1, a.2 ++ b.2)

/-- Contribution of one `_check_pattern_with_version` call: a label on a
match, plus the version when one was extracted and is truthy. -/
def withVersionAcc (E : RegexEngine) (text : String) (p : Patterns)
    (label : String) : List String × List String :=
  let mv := checkPatternWithVersion E text p
  if mv.1 then
    ([label],
      match mv.2 with
      | some s => if s ≠ "" then [s] else []
      | none => [])
  else ([], [])

/-- Order-preserving deduplication of the version set (`set.add` followed by
`list(...)`; a CPython set of strings iterates in an implementation-defined
order, modelled here as insertion order — no claim depends on it). -/
def dedupeStr (l : List String) : List String :=
  l.foldl (fun acc x => if acc.contains x then acc else acc ++ [x]) []

/-- The nine checks of the technology loop of `TechDetector.analyze`
(analyzer.py lines 97-176), producing the match-label list and the versions
added, in order.  The soup is recomputed here from the bundle html; the
source hoists that computation out of the loop, which is behaviour-
preserving since parsing is pure. -/
def techMatches (E : RegexEngine) (P1 P2 : HtmlParser) (b : SignalBundle)
    (td : TechData) : List String × List String :=
  let soup := computeSoup P1 P2 b.html
  let mUrl :=
    match td.url with
    | some p =>
      if b.url ≠ "" ∧ checkPattern E b.url p then (["url"], ([] : List String))
      else ([], [])
    | none => ([], [])
  let mHtml :=
    match td.html with
    | some p => if b.html ≠ "" then withVersionAcc E b.html p "html" else ([], [])
    | none => ([], [])
  let mSoup :=
    match soup, td.scripts with
    | some doc, some p =>
      (soupScriptSrcs doc).foldl
        (fun acc s => pairApp acc (withVersionAcc E s p "scripts")) ([], [])
    | _, _ => ([], [])
  let mScripts :=
    match td.scripts with
    | some p =>
      if b.scripts ≠ [] then
        b.scripts.foldl (fun acc s => pairApp acc (withVersionAcc E s p "scripts"))
          ([], [])
      else ([], [])
    | none => ([], [])
  let mHeaders :=
    match td.headers with
    | some hl =>
      if b.headers ≠ [] then
        hl.foldl
          (fun acc kv =>
            let v := headerValue b.headers kv.1
            if v ≠ "" then pairApp acc (withVersionAcc E v kv.2 ("headers:" ++ kv.1))
            else acc) ([], [])
      else ([], [])
    | none => ([], [])
  let mCookies :=
    match td.cookies with
    | some cl =>
      if b.cookies ≠ [] then
        cl.foldl
          (fun acc kv =>
            let v := (alistGet b.cookies kv.1).getD ""
            if v ≠ "" ∧ checkPattern E v kv.2 then
              (acc.1 ++ ["cookies:" ++ kv.1], acc.2)
            else acc) ([], [])
      else ([], [])
    | none => ([], [])
  let mMeta :=
    match td.meta with
    | some ml =>
      if b.meta ≠ [] then
        ml.foldl
          (fun acc kv =>
            let v := (alistGet b.meta kv.1).getD ""
            if v ≠ "" then pairApp acc (withVersionAcc E v kv.2 ("meta:" ++ kv.1))
            else acc) ([], [])
      else ([], [])
    | none => ([], [])
  let mDns :=
    match td.dns with
    | some dl =>
      if b.dns ≠ [] then
        dl.foldl
          (fun acc kv =>
            let vals := ((alistGet b.dns (upperStr kv.1)).getD [])
            vals.foldl
              (fun acc2 v =>
                if checkPattern E v kv.2 then (acc2.1 ++ ["dns:" ++ kv.1], acc2.2)
                else acc2) acc) ([], [])
      else ([], [])
    | none => ([], [])
  let mCert :=
    match td.certIssuer with
    | some p =>
      if b.certIssuer ≠ "" ∧ checkPattern E b.certIssuer p then
        (["certIssuer"], ([] : List String))
      else ([], [])
    | none => ([], [])
  pairApp mUrl (pairApp mHtml (pairApp mSoup (pairApp mScripts (pairApp mHeaders
    (pairApp mCookies (pairApp mMeta (pairApp mDns mCert)))))))

/-- The per-technology record stored in `self.detected` (analyzer.py lines
180-185). -/
structure DetInfo where
  versions : List String
  confidence : Nat
  matchLabels : List String
  cats : List Nat
deriving DecidableEq

/-- The technology loop of `analyze`: non-dict entries are skipped
(line 94), and a record is stored exactly when the match list is non-empty,
with `confidence = min(len(matches) * 10, 100)`. -/
def detectedEntries (E : RegexEngine) (P1 P2 : HtmlParser) (b : SignalBundle)
    (techs : List (String × Option TechData)) : List (String × DetInfo) :=
  techs.filterMap fun nt =>
    match nt.2 with
    | none => none
    | some td =>
      let mv := techMatches E P1 P2 b td
      if mv.1 = [] then none
      else
        some (nt.1,
          { versions := dedupeStr mv.2, confidence := min (mv.1.length * 10) 100,
            matchLabels := mv.1, cats := td.cats })

/-- A categories-table entry: a dict with an optional name and group ids, or
a non-dict value (skipped by the `isinstance` check). -/
inductive CatEntry where
  | cdict (name : Option String) (groups : List Nat)
  | cother
deriving DecidableEq

/-- A groups-table entry. -/
inductive GrpEntry where
  | gdict (name : Option String)
  | gother
deriving DecidableEq

/-- Python `set.add` on an int set, modelled as order-preserving insertion
(iteration order of a CPython int set is implementation-defined; no claim
depends on it). -/
def insertDedupNat (l : List Nat) (x : Nat) : List Nat :=
  if l.contains x then l else l ++ [x]

/-- One step of the category loop of `_format_results` (analyzer.py lines
264-271): a dict entry appends its display name (synthesizing
`Category <id>` when absent) and adds its group ids to the set; missing or
non-dict entries are skipped. -/
def collectCatsStep (ctable : List (String × CatEntry))
    (acc : List String × List Nat) (cid : Nat) : List String × List Nat :=
  match alistGet ctable (toString cid) with
  | some (.cdict nm gl) =>
    (acc.1 ++ [nm.getD ("Category " ++ toString cid)], gl.foldl insertDedupNat acc.2)
  | _ => acc

/-- Category resolution of `_format_results` (analyzer.py lines 261-271):
category names in declared order (missing names synthesized as
`Category <id>`), and the deduplicated union of their group ids. -/
def collectCats (ctable : List (String × CatEntry)) (ids : List Nat) :
    List String × List Nat :=
  ids.foldl (collectCatsStep ctable) ([], [])

/-- Group-name resolution (analyzer.py lines 273-278): non-dict and missing
entries are skipped; a dict without a name synthesizes `Group <id>`. -/
def resolveGroupName (gtable : List (String × GrpEntry)) (gid : Nat) :
    Option String :=
  match alistGet gtable (toString gid) with
  | some (.gdict nm) => some (nm.getD ("Group " ++ toString gid))
  | _ => none

/-- Category ids of a technology as `_format_results` re-reads them:
`self.technologies.get(tech_name, {}).get("cats", [])`.  For names present
in `self.detected` the entry is always a dict, so the non-dict fallback
(which would raise in Python) is unreachable and modelled as `[]`. -/
def techCats (techs : List (String × Option TechData)) (name : String) :
    List Nat :=
  match alistGet techs name with
  | some (some td) => td.cats
  | _ => []

/-- One detection record of the output (analyzer.py lines 253-259). -/
structure Detection where
  name : String
  confidence : Nat
  versions : List String
  categories : List String
  groups : List String
deriving DecidableEq

/-- Build one result record (analyzer.py lines 250-280). -/
def buildResult (techs : List (String × Option TechData))
    (ctable : List (String × CatEntry)) (gtable : List (String × GrpEntry))
    (ent : String × DetInfo) : Detection :=
  let cg := collectCats ctable (techCats techs ent.1)
  { name := ent.1, confidence := ent.2.confidence, versions := ent.2.versions,
    categories := cg.1, groups := cg.2.filterMap (resolveGroupName gtable) }

/-- Stable insertion for a descending sort by confidence: an element passes
over strictly greater heads and lands before the first head not greater, so
equal-confidence elements keep their original relative order. -/
def insertDesc (x : Detection) : List Detection → List Detection
  | [] => [x]
  | y :: ys => if x.confidence < y.confidence then y :: insertDesc x ys else x :: y :: ys

/-- Model of CPython `list.sort(key=confidence, reverse=True)`: a stable
sort by confidence descending (analyzer.py line 282). -/
def pySortDesc : List Detection → List Detection
  | [] => []
  | x :: xs => insertDesc x (pySortDesc xs)

/-- `TechDetector._format_results` (analyzer.py lines 247-283). -/
def formatResults (techs : List (String × Option TechData))
    (ctable : List (String × CatEntry)) (gtable : List (String × GrpEntry))
    (detected : List (String × DetInfo)) : List Detection :=
  pySortDesc (detected.map (buildResult techs ctable gtable))

/-- The detector state: the three fingerprint tables plus the `detected`
instance attribute that `analyze` assigns (analyzer.py lines 27-32, 77). -/
structure TechDetector where
  technologies : List (String × Option TechData)
  categories : List (String × CatEntry)
  groups : List (String × GrpEntry)
  detected : List (String × DetInfo)
deriving DecidableEq

/-- `TechDetector.analyze` (analyzer.py lines 64-187): resets
`self.detected`, runs the technology loop, stores the per-technology map on
the instance and returns the formatted results.  The returned pair is the
updated instance state and the result list. -/
def TechDetector.analyze (E : RegexEngine) (P1 P2 : HtmlParser)
    (d : TechDetector) (b : SignalBundle) : TechDetector × List Detection :=
  let det := detectedEntries E P1 P2 b d.technologies
  ({ d with detected := det },
    formatResults d.technologies d.categories d.groups det)

/-- Python `str(x)` for JSON-shaped values; the repr of containers is
abbreviated (no claim evaluates `str()` of a container). -/
def pyStr : Json → String
  | .str s => s
  | .null => "None"
  | .bool true => "True"
  | .bool false => "False"
  | .num n => toString n
  | .arr _ => "[...]"
  | .obj _ => "\x7b...\x7d"

/-- Coercion of a stored JSON value to the string the analyzer will feed to
the regex engine.  Python defers the `TypeError` for a non-string until the
value is actually consulted inside `re.search`; this model front-loads it at
bundle conversion.  Only captures carrying non-string signal values are
affected, and no claim exercises them. -/
def asStrDeferred : Json → Except String String
  | .str s => .ok s
  | _ => .error "TypeError"

/-- Convert a parsed HAR bundle into the analyzer's typed inputs
(`TechDetector.analyze_har` passes the parsed fields straight through,
leaving `dns` and `certIssuer` at their defaults). -/
def harToSignalBundle (hb : HarBundle) : Except String SignalBundle := do
  let url ← asStrDeferred hb.url
  let html ← asStrDeferred hb.html
  let headers ← hb.headers.mapM (fun kv => (asStrDeferred kv.2).map (fun v => (kv.1, v)))
  let cookies ← hb.cookies.mapM (fun kv => do
    let k ← asStrDeferred kv.1
    let v ← asStrDeferred kv.2
    return (k, v))
  let scripts ← hb.scripts.mapM asStrDeferred
  return { url := url, html := html, headers := headers, cookies := cookies,
           scripts := scripts, meta := hb.meta, dns := [], certIssuer := "" }

/-- `TechDetector.analyze_har` (analyzer.py lines 35-46): parse the HAR file
and analyze the extracted fields.  `fs` maps a path to the outcome of the
guarded read-and-decode block (`none` = that block raised). -/
def TechDetector.analyzeHar (E : RegexEngine) (P1 P2 : HtmlParser)
    (fs : String → Option Json) (d : TechDetector) (path : String) :
    Except String (TechDetector × List Detection) := do
  let hb ← parseHarFile P1 P2 (fs path)
  let sb ← harToSignalBundle hb
  return d.analyze E P1 P2 sb

/-- Python `dict(x or \x7b\x7d)` for a named-signal field of
`analyze_json`, with value strings required (see `asStrDeferred`). -/
def asStrDict : Json → Except String (List (String × String))
  | .obj kvs => kvs.mapM (fun kv => (asStrDeferred kv.2).map (fun v => (kv.1, v)))
  | _ => .error "TypeError"

/-- Python `list(x or [])` for the scripts field: lists yield elements,
strings their characters, dicts their keys. -/
def asStrItems : Json → Except String (List String)
  | .arr xs => xs.mapM asStrDeferred
  | .str s => .ok (s.data.map String.singleton)
  | .obj kvs => .ok (kvs.map (fun kv => kv.1))
  | _ => .error "TypeError"

/-- The dns field conversion of `analyze_json` (record type to value list). -/
def asStrListDict : Json → Except String (List (String × List String))
  | .obj kvs => kvs.mapM (fun kv => (asStrItems kv.2).map (fun v => (kv.1, v)))
  | _ => .error "TypeError"

/-- The non-HAR branch of `TechDetector.analyze_json` (analyzer.py lines
53-62): extract each field with its default and falsy-fallback. -/
def jsonToBundle (j : List (String × Json)) : Except String SignalBundle := do
  let url := pyStr ((alistGet j "url").getD (.str ""))
  let html := pyStr ((alistGet j "html").getD (.str ""))
  let headers ← asStrDict (orElseJ ((alistGet j "headers").getD (.obj [])) (.obj []))
  let cookies ← asStrDict (orElseJ ((alistGet j "cookies").getD (.obj [])) (.obj []))
  let scripts ← asStrItems (orElseJ ((alistGet j "scripts").getD (.arr [])) (.arr []))
  let meta ← asStrDict (orElseJ ((alistGet j "meta").getD (.obj [])) (.obj []))
  let dns ← asStrListDict (orElseJ ((alistGet j "dns").getD (.obj [])) (.obj []))
  let certIssuer := pyStr (orElseJ ((alistGet j "certIssuer").getD (.str "")) (.str ""))
  return { url := url, html := html, headers := headers, cookies := cookies,
           scripts := scripts, meta := meta, dns := dns, certIssuer := certIssuer }

/-- `TechDetector.analyze_json` (analyzer.py lines 48-62): a dict containing
a `har_path` key delegates to HAR analysis of `str(json_data["har_path"])`,
ignoring every other key; otherwise the fields are extracted directly. -/
def TechDetector.analyzeJson (E : RegexEngine) (P1 P2 : HtmlParser)
    (fs : String → Option Json) (d : TechDetector) (j : List (String × Json)) :
    Except String (TechDetector × List Detection) :=
  match alistGet j "har_path" with
  | some v => d.analyzeHar E P1 P2 fs (pyStr v)
  | none => do
    let sb ← jsonToBundle j
    return d.analyze E P1 P2 sb

/-- `detect_technologies` (analyzer.py lines 290-328).  The module-level
singleton detector is passed explicitly as `d`; a truthy `har_path` takes
precedence, then a non-`None` `json_data`, else the direct keyword
arguments. -/
def detectTechnologies (E : RegexEngine) (P1 P2 : HtmlParser)
    (fs : String → Option Json) (d : TechDetector)
    (url html : String) (headers cookies : List (String × String))
    (scripts : List String) (meta : List (String × String))
    (dns : List (String × List String)) (certIssuer : String)
    (harPath : Option String) (jsonData : Option (List (String × Json))) :
    Except String (TechDetector × List Detection) :=
  if optTruthy harPath then d.analyzeHar E P1 P2 fs (harPath.getD "")
  else
    match jsonData with
    | some j => d.analyzeJson E P1 P2 fs j
    | none =>
      .ok (d.analyze E P1 P2
        { url := url, html := html, headers := headers, cookies := cookies,
          scripts := scripts, meta := meta, dns := dns, certIssuer := certIssuer })

/-- Search outcome of one versioned-map entry: compile the stripped pattern
and search, `none` when the regex is invalid or does not match. -/
def entrySearch (E : RegexEngine) (text : String) (p : String) :
    Option (List (Option String)) :=
  match E (stripWappalyzerPattern p) with
  | none => none
  | some rx => rx text

/-- Simultaneous backreference substitution as the specification words it:
scan the template once, left to right; each token `\\i` (i in 1..9) is
replaced by capture group i when that group participated and is non-empty,
and left unresolved otherwise; substituted text is not rescanned. -/
def specSubstChars (groups : List (Option String)) : List Char → List Char
  | [] => []
  | '\\' :: d :: rest =>
    if '1' ≤ d ∧ d ≤ '9' then
      match groups.get? (d.toNat - 49) with
      | some (some g) =>
        if g ≠ "" then g.data ++ specSubstChars groups rest
        else '\\' :: d :: specSubstChars groups rest
      | _ => '\\' :: d :: specSubstChars groups rest
    else '\\' :: specSubstChars groups (d :: rest)
  | c :: rest => c :: specSubstChars groups rest

/-- Version string as described by the specification of claim C2
(simultaneous substitution over the original template). -/
def specVersionSubst (template : String) (groups : List (Option String)) :
    String :=
  String.mk (specSubstChars groups template.data)

/-- Truncation at the first literal `\\;`, as the specification of claim C9
describes the strip. -/
def takeUntilBSsemi : List Char → List Char
  | [] => []
  | c :: cs =>
    if c = '\\' ∧ cs.head? = some ';' then [] else c :: takeUntilBSsemi cs

/-- Pattern stripping as described by the specification: remove the first
`\\;` and everything after it. -/
def specStripPattern (p : String) : String :=
  String.mk (takeUntilBSsemi p.data)

/-- Whether the character list contains the two-character sequence `\\;`. -/
def hasBSsemi : List Char → Bool
  | [] => false
  | c :: cs =>
    if c = '\\' ∧ cs.head? = some ';' then true else hasBSsemi cs

/-- Body-text decoding as the specification of claim C6 words it: on a
declared base64 encoding, decode and replace invalid bytes (U+FFFD);
a decoding failure leaves the text undecoded. -/
def specDecodeHarText (isB64 : Bool) (s : String) : String :=
  if isB64 then
    match b64decode s with
    | some bytes => utf8DecodeReplace bytes
    | none => s
  else s

/-- A concrete engine for witnesses: a pattern is a literal substring to
search for, except `"("` which fails to compile (as it does in `re`).
Matches report no capture groups. -/
def subEngine : RegexEngine := fun pat =>
  if pat = "(" then none
  else some (fun text => if strContains text pat then some [] else none)

/-- A concrete engine realising `re.search("(.*)(b)", text, re.IGNORECASE)`
on the text `"\\2b"`: the greedy `(.*)` captures `"\\2"` and `(b)` captures
`"b"`. -/
def cexEngine : RegexEngine := fun pat =>
  if pat = "(.*)(b)" then
    some (fun text => if text = "\\2b" then some [some "\\2", some "b"] else none)
  else none

/-- An HTML parser that always raises. -/
def noParse : HtmlParser := fun _ => none

/-- An HTML parser that succeeds with an empty document. -/
def emptyDocParser : HtmlParser := fun _ => some { scriptTags := [], metaTags := [] }

/-- A single-entry capture whose response body is `txt` with an optional
declared encoding, used to exercise the body-decoding path. -/
def mkTextCapture (enc : Option String) (txt : String) : Json :=
  .obj [("log", .obj [("entries", .arr [
    .obj [("request", .obj [("url", .str "http://example.test/")]),
          ("response", .obj [("content",
            .obj ([("mimeType", Json.str "text/html"), ("text", Json.str txt)] ++
              (match enc with
               | some e => [("encoding", Json.str e)]
               | none => [])))])]])])]

/-- A one-technology fingerprint used by concrete witnesses: the technology
`"T"` matches when the bundle url contains `"x"`. -/
def demoTech : TechData := { url := some (.pstr "x"), cats := [1] }

/-- A concrete detector for witnesses (groups table empty). -/
def demoDetector : TechDetector :=
  { technologies := [("T", some demoTech)],
    categories := [("1", .cdict (some "C") [1, 2])],
    groups := [],
    detected := [] }

/-- A concrete detector whose two group ids resolve to the same display
name. -/
def dupGroupsDetector : TechDetector :=
  { technologies := [("T", some demoTech)],
    categories := [("1", .cdict (some "C") [1, 2])],
    groups := [("1", .gdict (some "X")), ("2", .gdict (some "X"))],
    detected := [] }

/-- A bundle carrying only a url. -/
def demoBundle : SignalBundle := { url := "x" }

/-! Sorting lemmas for the stable descending sort of `_format_results`. -/

theorem mem_insertDesc {x a : Detection} {l : List Detection} :
    x ∈ insertDesc a l ↔ x = a ∨ x ∈ l := by
  induction l with
  | nil => simp [insertDesc]
  | cons y ys ih =>
    simp only [insertDesc]
    by_cases h : a.confidence < y.confidence
    · simp [h, ih]
      tauto
    · simp [h]

theorem insertDesc_sorted {a : Detection} {l : List Detection}
    (h : List.Pairwise (fun x y => y.confidence ≤ x.confidence) l) :
    List.Pairwise (fun x y => y.confidence ≤ x.confidence) (insertDesc a l) := by
  induction l with
  | nil => simp [insertDesc]
  | cons y ys ih =>
    rw [List.pairwise_cons] at h
    obtain ⟨hy, hys⟩ := h
    simp only [insertDesc]
    by_cases hc : a.confidence < y.confidence
    · rw [if_pos hc, List.pairwise_cons]
      refine ⟨fun z hz => ?_, ih hys⟩
      rcases mem_insertDesc.mp hz with rfl | hz'
      · omega
      · exact hy z hz'
    · rw [if_neg hc, List.pairwise_cons]
      refine ⟨fun z hz => ?_, List.pairwise_cons.mpr ⟨hy, hys⟩⟩
      rcases List.mem_cons.mp hz with rfl | hz'
      · omega
      · have := hy z hz'
        omega

theorem pySortDesc_sorted (l : List Detection) :
    List.Pairwise (fun x y => y.confidence ≤ x.confidence) (pySortDesc l) := by
  induction l with
  | nil => simp [pySortDesc]
  | cons x xs ih => exact insertDesc_sorted ih

theorem filter_insertDesc (c : Nat) (a : Detection) (l : List Detection) :
    (insertDesc a l).filter (fun x => x.confidence == c) =
      if a.confidence == c then a :: l.filter (fun x => x.confidence == c)
      else l.filter (fun x => x.confidence == c) := by
  induction l with
  | nil => cases ha : a.confidence == c <;> simp [insertDesc, List.filter_cons, ha]
  | cons y ys ih =>
    simp only [insertDesc]
    by_cases h : a.confidence < y.confidence
    · rw [if_pos h]
      by_cases hy : y.confidence == c
      · have hyc : y.confidence = c := by simpa using hy
        have hane : (a.confidence == c) = false := by
          have hne : a.confidence ≠ c := by omega
          simpa using hne
        simp [List.filter_cons, hy, ih, hane]
      · simp [List.filter_cons, hy, ih]
    · rw [if_neg h]
      by_cases ha : a.confidence == c <;> simp [List.filter_cons, ha]

theorem filter_pySortDesc (c : Nat) (l : List Detection) :
    (pySortDesc l).filter (fun x => x.confidence == c) =
      l.filter (fun x => x.confidence == c) := by
  induction l with
  | nil => rfl
  | cons x xs ih =>
    simp only [pySortDesc]
    rw [filter_insertDesc]
    by_cases h : x.confidence == c <;> simp [h, ih, List.filter_cons]

theorem mem_pySortDesc {x : Detection} {l : List Detection} :
    x ∈ pySortDesc l ↔ x ∈ l := by
  induction l with
  | nil => simp [pySortDesc]
  | cons y ys ih =>
    simp only [pySortDesc]
    rw [mem_insertDesc, ih]
    simp

/-- Claim C3: for every analyze call the returned list is sorted by
confidence descending, and the sort is stable: filtering any confidence
value from the output equals filtering it from the unsorted
per-technology results, which are built in the technology table's
iteration order. -/
theorem C3_sorted_stable (E : RegexEngine) (P1 P2 : HtmlParser)
    (d : TechDetector) (b : SignalBundle) :
    List.Pairwise (fun x y => y.confidence ≤ x.confidence)
      (TechDetector.analyze E P1 P2 d b).2 ∧
    ∀ c : Nat,
      (TechDetector.analyze E P1 P2 d b).2.filter (fun x => x.confidence == c) =
        ((detectedEntries E P1 P2 b d.technologies).map
            (buildResult d.technologies d.categories d.groups)).filter
          (fun x => x.confidence == c) :=
  ⟨pySortDesc_sorted _, fun c => filter_pySortDesc c _⟩

/-! Membership lemmas for the detection pipeline. -/

theorem alist_nodup_eq {A : Type} {l : List (String × A)}
    (hnd : (l.map Prod.fst).Nodup) {k : String} {a b : A}
    (ha : (k, a) ∈ l) (hb : (k, b) ∈ l) : a = b := by
  induction l with
  | nil => cases ha
  | cons x xs ih =>
    rw [List.map_cons, List.nodup_cons] at hnd
    obtain ⟨hx, hnd'⟩ := hnd
    rcases List.mem_cons.mp ha with rfl | ha' <;>
      rcases List.mem_cons.mp hb with hb' | hb'
    · exact (congrArg Prod.snd hb').symm
    · exact absurd (List.mem_map.mpr ⟨(k, b), hb', rfl⟩) hx
    · rw [← hb'] at hx
      exact absurd (List.mem_map.mpr ⟨(k, a), ha', rfl⟩) hx
    · exact ih hnd' ha' hb'

theorem mem_detectedEntries {E : RegexEngine} {P1 P2 : HtmlParser}
    {b : SignalBundle} {techs : List (String × Option TechData)}
    {ent : String × DetInfo} :
    ent ∈ detectedEntries E P1 P2 b techs ↔
      ∃ td, (ent.1, some td) ∈ techs ∧ (techMatches E P1 P2 b td).1 ≠ [] ∧
        ent.2 = { versions := dedupeStr (techMatches E P1 P2 b td).2,
                  confidence := min ((techMatches E P1 P2 b td).1.length * 10) 100,
                  matchLabels := (techMatches E P1 P2 b td).1, cats := td.cats } := by
  unfold detectedEntries
  rw [List.mem_filterMap]
  constructor
  · rintro ⟨⟨n, e⟩, hmem, hf⟩
    cases e with
    | none => simp at hf
    | some td =>
      simp only at hf
      by_cases hms : (techMatches E P1 P2 b td).1 = []
      · simp [hms] at hf
      · rw [if_neg hms] at hf
        injection hf with hf
        subst hf
        exact ⟨td, hmem, hms, rfl⟩
  · rintro ⟨td, hmem, hms, hinfo⟩
    refine ⟨(ent.1, some td), hmem, ?_⟩
    simp only [if_neg hms]
    rw [← hinfo]

theorem buildResult_name (techs : List (String × Option TechData))
    (ctable : List (String × CatEntry)) (gtable : List (String × GrpEntry))
    (ent : String × DetInfo) :
    (buildResult techs ctable gtable ent).name = ent.1 := rfl

theorem buildResult_confidence (techs : List (String × Option TechData))
    (ctable : List (String × CatEntry)) (gtable : List (String × GrpEntry))
    (ent : String × DetInfo) :
    (buildResult techs ctable gtable ent).confidence = ent.2.confidence := rfl

/-- Claim C4: a Detection is produced for a technology iff it accumulated at
least one matched-signal label; its confidence is `min(10 x labels, 100)`
(labels not deduplicated by signal type), and every emitted confidence is a
multiple of 10 between 10 and 100. -/
theorem C4_confidence (E : RegexEngine) (P1 P2 : HtmlParser) (b : SignalBundle)
    (d : TechDetector) (name : String) (td : TechData)
    (hnd : (d.technologies.map Prod.fst).Nodup)
    (hmem : (name, some td) ∈ d.technologies) :
    (((TechDetector.analyze E P1 P2 d b).2.any (fun r => r.name == name)) = true ↔
      (techMatches E P1 P2 b td).1 ≠ []) ∧
    (∀ r ∈ (TechDetector.analyze E P1 P2 d b).2, r.name = name →
      r.confidence = min ((techMatches E P1 P2 b td).1.length * 10) 100) ∧
    (∀ r ∈ (TechDetector.analyze E P1 P2 d b).2,
      10 ≤ r.confidence ∧ r.confidence ≤ 100 ∧ 10 ∣ r.confidence) := by
  have hout : ∀ r : Detection, r ∈ (TechDetector.analyze E P1 P2 d b).2 ↔
      ∃ ent ∈ detectedEntries E P1 P2 b d.technologies,
        r = buildResult d.technologies d.categories d.groups ent := by
    intro r
    show r ∈ pySortDesc _ ↔ _
    rw [mem_pySortDesc, List.mem_map]
    constructor
    · rintro ⟨ent, hent, rfl⟩
      exact ⟨ent, hent, rfl⟩
    · rintro ⟨ent, hent, rfl⟩
      exact ⟨ent, hent, rfl⟩
  refine ⟨?_, ?_, ?_⟩
  · rw [List.any_eq_true]
    constructor
    · rintro ⟨r, hr, hname⟩
      obtain ⟨ent, hent, rfl⟩ := (hout r).mp hr
      obtain ⟨td', hmem', hms', hinfo'⟩ := mem_detectedEntries.mp hent
      have he1 : ent.1 = name := by simpa using hname
      rw [he1] at hmem'
      have : some td' = some td := alist_nodup_eq hnd hmem' hmem
      injection this with h
      subst h
      exact hms'
    · intro hms
      refine ⟨buildResult d.technologies d.categories d.groups
        (name, { versions := dedupeStr (techMatches E P1 P2 b td).2,
                 confidence := min ((techMatches E P1 P2 b td).1.length * 10) 100,
                 matchLabels := (techMatches E P1 P2 b td).1, cats := td.cats }),
        ?_, by simp [buildResult_name]⟩
      rw [hout]
      exact ⟨_, mem_detectedEntries.mpr ⟨td, hmem, hms, rfl⟩, rfl⟩
  · intro r hr hname
    obtain ⟨ent, hent, rfl⟩ := (hout r).mp hr
    obtain ⟨td', hmem', hms', hinfo'⟩ := mem_detectedEntries.mp hent
    have he1 : ent.1 = name := hname
    rw [he1] at hmem'
    have : some td' = some td := alist_nodup_eq hnd hmem' hmem
    injection this with h
    subst h
    rw [buildResult_confidence, hinfo']
  · intro r hr
    obtain ⟨ent, hent, rfl⟩ := (hout r).mp hr
    obtain ⟨td', hmem', hms', hinfo'⟩ := mem_detectedEntries.mp hent
    have hconf : (buildResult d.technologies d.categories d.groups ent).confidence =
        min ((techMatches E P1 P2 b td').1.length * 10) 100 := by
      rw [buildResult_confidence, hinfo']
    rw [hconf]
    have hlen : 1 ≤ (techMatches E P1 P2 b td').1.length :=
      List.length_pos.mpr hms'
    refine ⟨?_, ?_, ?_⟩
    · omega
    · omega
    · rcases Nat.le_total ((techMatches E P1 P2 b td').1.length * 10) 100 with hle | hle
      · rw [Nat.min_eq_left hle]
        exact ⟨(techMatches E P1 P2 b td').1.length, Nat.mul_comm _ _⟩
      · rw [Nat.min_eq_right hle]
        decide

/-! Characterization of the extractor on single-entry text captures. -/

theorem parseHar_mkTextCapture (enc : Option String) (txt : String) (htxt : txt ≠ "") :
    parseHarFile emptyDocParser emptyDocParser (some (mkTextCapture enc txt)) =
      .ok { url := .str "http://example.test/",
            html := .str (decodeHarText (isB64Encoding ((alistGet
              (match enc with
               | some e => [("encoding", Json.str e)]
               | none => []) "encoding").getD .null)) txt),
            headers := [], cookies := [], scripts := [], meta := [] } := by
  have ht : pyTruthy (Json.str txt) = true := by simp [pyTruthy, htxt]
  have h1 : strContains (lowerStr "text/html") "javascript" = false := by decide
  have h2 : strEndsWith "http://example.test/" ".js" = false := by decide
  have h3 : strContains (lowerStr "text/html") "html" = true := by decide
  cases enc with
  | none =>
    by_cases hph : decodeHarText false txt = "" <;>
      simp [parseHarFile, mkTextCapture, pyGetD, alistGet, pyIndexZero, pyIter,
        findMainEntry, entryIsHtml, asStringAttr, orElseJ, ht,
        pyTruthy, htxt, scriptUrlOf, emptyDocParser,
        dedupeJson, isB64Encoding, jEqStr, hph, Except.map, Bind.bind, Except.bind,
        Pure.pure, Except.pure, h1, h2, h3]
  | some e =>
    by_cases hph : decodeHarText (isB64Encoding (Json.str e)) txt = "" <;>
      simp [parseHarFile, mkTextCapture, pyGetD, alistGet, pyIndexZero, pyIter,
        findMainEntry, entryIsHtml, asStringAttr, orElseJ, ht,
        pyTruthy, htxt, scriptUrlOf, emptyDocParser,
        dedupeJson, isB64Encoding, jEqStr, hph, Except.map, Bind.bind, Except.bind,
        Pure.pure, Except.pure, h1, h2, h3]
/-- Claim C6 (amended): when the capture's main entry declares base64
encoding the body is decoded and invalid bytes are dropped
(`errors="ignore"`), not replaced; if decoding raises, the text is silently
left undecoded; without a base64 declaration the body is used verbatim. -/
theorem C6_amended (txt : String) (enc : Option String) (htxt : txt ≠ "") :
    (∀ bs, enc = some "base64" → b64decode txt = some bs →
      (parseHarFile emptyDocParser emptyDocParser (some (mkTextCapture enc txt))).map
        HarBundle.html = .ok (.str (utf8DecodeIgnore bs))) ∧
    (enc = some "base64" → b64decode txt = none →
      (parseHarFile emptyDocParser emptyDocParser (some (mkTextCapture enc txt))).map
        HarBundle.html = .ok (.str txt)) ∧
    (enc = none →
      (parseHarFile emptyDocParser emptyDocParser (some (mkTextCapture enc txt))).map
        HarBundle.html = .ok (.str txt)) := by
  refine ⟨?_, ?_, ?_⟩
  · rintro bs rfl hbs
    rw [parseHar_mkTextCapture _ _ htxt]
    simp [alistGet, isB64Encoding, jEqStr, decodeHarText, hbs, Except.map]
  · rintro rfl hbs
    rw [parseHar_mkTextCapture _ _ htxt]
    simp [alistGet, isB64Encoding, jEqStr, decodeHarText, hbs, Except.map]
  · rintro rfl
    rw [parseHar_mkTextCapture _ _ htxt]
    simp [alistGet, isB64Encoding, jEqStr, decodeHarText, Except.map]

/-- Claim C6 counterexample: for the base64 body `Yf9i` (the bytes
`a 0xFF b`), the extractor's html is `ab` — the invalid byte was dropped —
whereas the claim's "invalid bytes are replaced" yields `a U+FFFD b`. -/
theorem C6_cex :
    (parseHarFile emptyDocParser emptyDocParser
        (some (mkTextCapture (some "base64") "Yf9i"))).map HarBundle.html =
      .ok (.str "ab") ∧
    b64decode "Yf9i" = some [97, 255, 98] ∧
    specDecodeHarText true "Yf9i" = "a�b" ∧
    ("ab" : String) ≠ "a�b" :=
  ⟨rfl, by decide, by decide, by decide⟩

/-- Witness for C6 (amended) at a concrete base64 capture. -/
theorem C6_amended_witness :
    (parseHarFile emptyDocParser emptyDocParser
        (some (mkTextCapture (some "base64") "Yf9i"))).map HarBundle.html =
      .ok (.str (utf8DecodeIgnore [97, 255, 98])) :=
  (C6_amended "Yf9i" (some "base64") (by decide)).1 [97, 255, 98] rfl (by decide)

/-- Claim C1 (amended): `parse_har_file` returns the all-empty bundle
without raising when the guarded read-and-JSON-decode block fails, when the
decoded capture has no log/entries structure, and when the entries list is
empty; however a decoded capture whose top level is not an object raises
(see the counterexample). -/
theorem C1_amended (P1 P2 : HtmlParser) :
    parseHarFile P1 P2 none = .ok emptyHarBundle ∧
    parseHarFile P1 P2 (some (.obj [])) = .ok emptyHarBundle ∧
    parseHarFile P1 P2 (some (.obj [("log", .obj [("entries", .arr [])])])) =
      .ok emptyHarBundle :=
  ⟨rfl, rfl, rfl⟩

/-- Claim C1 counterexample: a file whose JSON decodes to the array `[]` is
a malformed capture, yet `parse_har_file` raises `AttributeError` at
`har_data.get("log", ...)` instead of returning the all-empty bundle. -/
theorem C1_cex :
    parseHarFile emptyDocParser emptyDocParser (some (.arr [])) =
      .error "AttributeError" ∧
    (Except.error "AttributeError" : Except String HarBundle) ≠ .ok emptyHarBundle :=
  ⟨rfl, fun h => nomatch h⟩

/-- Claim C5 (amended): the per-call detection map is stored on the engine
instance (`self.detected`) and survives the call, but `analyze` resets it on
entry, so the result list is independent of any previously stored state and
the three fingerprint tables are never modified. -/
theorem C5_amended (E : RegexEngine) (P1 P2 : HtmlParser) (d : TechDetector)
    (X : List (String × DetInfo)) (b : SignalBundle) :
    (TechDetector.analyze E P1 P2 { d with detected := X } b).2 =
      (TechDetector.analyze E P1 P2 d b).2 ∧
    (TechDetector.analyze E P1 P2 d b).1.technologies = d.technologies ∧
    (TechDetector.analyze E P1 P2 d b).1.categories = d.categories ∧
    (TechDetector.analyze E P1 P2 d b).1.groups = d.groups ∧
    (TechDetector.analyze E P1 P2 d b).1.detected =
      detectedEntries E P1 P2 b d.technologies :=
  ⟨rfl, rfl, rfl, rfl, rfl⟩

/-- Claim C5 counterexample: after one `analyze` call the engine's
`detected` attribute is no longer its prior (empty) value — per-call
working state is stored on the instance, contradicting the claim that no
per-call state is stored on the engine after `analyze` returns. -/
theorem C5_cex :
    demoDetector.detected = [] ∧
    (TechDetector.analyze subEngine noParse noParse demoDetector demoBundle).1.detected ≠
      [] := by
  refine ⟨rfl, ?_⟩
  decide


/-! Lemmas on the versioned-map iteration. -/

theorem goVersioned_skip (E : RegexEngine) (text p v : String)
    (rest : List (String × String)) (h : entrySearch E text p = none) :
    goVersioned E text ((p, v) :: rest) = goVersioned E text rest := by
  unfold entrySearch at h
  cases hE : E (stripWappalyzerPattern p) with
  | none => simp only [goVersioned, hE]
  | some rx =>
    rw [hE] at h
    simp only [] at h
    simp only [goVersioned, hE, h]

theorem goVersioned_hit (E : RegexEngine) (text p t : String)
    (post : List (String × String)) (gs : List (Option String))
    (h : entrySearch E text p = some gs) :
    goVersioned E text ((p, t) :: post) =
      (true, if gs ≠ [] ∧ t ≠ "" then some (applyVersionTemplate t gs) else none) := by
  unfold entrySearch at h
  cases hE : E (stripWappalyzerPattern p) with
  | none => rw [hE] at h; cases h
  | some rx =>
    rw [hE] at h
    simp only [] at h
    simp only [goVersioned, hE, h]
    by_cases hc : gs ≠ [] ∧ t ≠ "" <;> simp [hc]

theorem goVersioned_none (E : RegexEngine) (text : String)
    (l : List (String × String))
    (h : ∀ q v, (q, v) ∈ l → entrySearch E text q = none) :
    goVersioned E text l = (false, none) := by
  induction l with
  | nil => rfl
  | cons qv rest ih =>
    obtain ⟨q, v⟩ := qv
    rw [goVersioned_skip E text q v rest (h q v (List.mem_cons_self _ _))]
    exact ih (fun q2 v2 hm => h q2 v2 (List.mem_cons_of_mem _ hm))

theorem goVersioned_first (E : RegexEngine) (text : String)
    (pre post : List (String × String)) (p t : String)
    (gs : List (Option String))
    (hpre : ∀ q v, (q, v) ∈ pre → entrySearch E text q = none)
    (hit : entrySearch E text p = some gs) :
    goVersioned E text (pre ++ (p, t) :: post) =
      (true, if gs ≠ [] ∧ t ≠ "" then some (applyVersionTemplate t gs) else none) := by
  induction pre with
  | nil => simpa using goVersioned_hit E text p t post gs hit
  | cons qv rest ih =>
    obtain ⟨q, v⟩ := qv
    rw [List.cons_append,
      goVersioned_skip E text q v _ (hpre q v (List.mem_cons_self _ _))]
    exact ih (fun q2 v2 hm => hpre q2 v2 (List.mem_cons_of_mem _ hm))

/-- Claim C2 (amended): `matchWithVersion` on a VersionedMap consults
entries in declared order; the first entry whose stripped regex matches
determines the result and later entries are never consulted; if that entry
has capture groups and a non-empty template the version is produced by the
sequential substitution `applyVersionTemplate` (group i replaces every
occurrence of its token in the evolving string, so text introduced by an
earlier substitution can be rewritten by a later group), otherwise the
result is `(true, none)`; if no entry matches the result is
`(false, none)`. -/
theorem C2_amended (E : RegexEngine) (text : String)
    (pre post : List (String × String)) (p t : String)
    (gs : List (Option String)) (htext : text ≠ "")
    (hpre : ∀ q v, (q, v) ∈ pre → entrySearch E text q = none)
    (hit : entrySearch E text p = some gs) :
    checkPatternWithVersion E text (.pdict (pre ++ (p, t) :: post)) =
      (true, if gs ≠ [] ∧ t ≠ "" then some (applyVersionTemplate t gs) else none) ∧
    (∀ l : List (String × String),
      (∀ q v, (q, v) ∈ l → entrySearch E text q = none) →
      checkPatternWithVersion E text (.pdict l) = (false, none)) := by
  constructor
  · have hfal : patFalsy (Patterns.pdict (pre ++ (p, t) :: post)) = false := by
      simp [patFalsy]
    simp only [checkPatternWithVersion, hfal]
    rw [if_neg (by simp [htext])]
    exact goVersioned_first E text pre post p t gs hpre hit
  · intro l hl
    cases l with
    | nil => simp [checkPatternWithVersion, patFalsy]
    | cons qv rest =>
      have hfal : patFalsy (Patterns.pdict (qv :: rest)) = false := by
        simp [patFalsy]
      simp only [checkPatternWithVersion, hfal]
      rw [if_neg (by simp [htext])]
      exact goVersioned_none E text _ hl

/-- Claim C2 counterexample: on the realisable regex `(.*)(b)` searched in
the text `\\2b` (groups `\\2` and `b`) with template `\\1`, the code returns
version `b` — the sequential `str.replace` rewrote the substituted group
text — while the specification-described simultaneous substitution yields
`\\2`. -/
theorem C2_cex :
    checkPatternWithVersion cexEngine "\\2b" (.pdict [("(.*)(b)", "\\1")]) =
      (true, some "b") ∧
    specVersionSubst "\\1" [some "\\2", some "b"] = "\\2" ∧
    ("b" : String) ≠ "\\2" :=
  ⟨rfl, by decide, by decide⟩

/-- Witness for C2 (amended) at the counterexample instance. -/
theorem C2_amended_witness :
    checkPatternWithVersion cexEngine "\\2b" (.pdict [("(.*)(b)", "\\1")]) =
      (true, some (applyVersionTemplate "\\1" [some "\\2", some "b"])) := by
  have h := (C2_amended cexEngine "\\2b" [] [] "(.*)(b)" "\\1"
    [some "\\2", some "b"] (by decide) (by intro q v hq; cases hq) rfl).1
  simpa using h


theorem goPatternList_skip (E : RegexEngine) (text bad : String)
    (rest : List String) (h : E (stripWappalyzerPattern bad) = none) :
    goPatternList E text (bad :: rest) = goPatternList E text rest := by
  simp only [goPatternList, h]

/-- Claim C7: empty text or an empty (falsy) spec never matches; an invalid
regex in a list or versioned-map spec is skipped without affecting the
remaining patterns; and the per-technology evaluation decomposes over the
technology table, so one technology entry cannot affect the detections
produced for the others. -/
theorem C7_robust :
    (∀ (E : RegexEngine) (p : Patterns),
      checkPattern E "" p = false ∧ checkPatternWithVersion E "" p = (false, none)) ∧
    (∀ (E : RegexEngine) (text : String) (p : Patterns), patFalsy p = true →
      checkPattern E text p = false ∧ checkPatternWithVersion E text p = (false, none)) ∧
    (∀ (E : RegexEngine) (text bad : String) (rest : List String),
      E (stripWappalyzerPattern bad) = none →
      checkPattern E text (.plist (bad :: rest)) = checkPattern E text (.plist rest)) ∧
    (∀ (E : RegexEngine) (text bad v : String) (rest : List (String × String)),
      E (stripWappalyzerPattern bad) = none →
      checkPatternWithVersion E text (.pdict ((bad, v) :: rest)) =
        checkPatternWithVersion E text (.pdict rest)) ∧
    (∀ (E : RegexEngine) (P1 P2 : HtmlParser) (b : SignalBundle)
      (pre post : List (String × Option TechData)) (n : String)
      (e : Option TechData),
      detectedEntries E P1 P2 b (pre ++ (n, e) :: post) =
        detectedEntries E P1 P2 b pre ++ detectedEntries E P1 P2 b [(n, e)] ++
          detectedEntries E P1 P2 b post) := by
  refine ⟨?_, ?_, ?_, ?_, ?_⟩
  · intro E p
    constructor <;> simp [checkPattern, checkPatternWithVersion]
  · intro E text p hp
    constructor <;> simp [checkPattern, checkPatternWithVersion, hp]
  · intro E text bad rest h
    by_cases ht : text = ""
    · simp [checkPattern, ht]
    · cases rest with
      | nil => simp [checkPattern, patFalsy, ht, goPatternList, h]
      | cons r rs =>
        simp [checkPattern, patFalsy, ht, goPatternList_skip E text bad _ h]
  · intro E text bad v rest h
    by_cases ht : text = ""
    · simp [checkPatternWithVersion, ht]
    · have hskip : entrySearch E text bad = none := by simp [entrySearch, h]
      cases rest with
      | nil =>
        simp [checkPatternWithVersion, patFalsy, ht, goVersioned, h]
      | cons r rs =>
        simp [checkPatternWithVersion, patFalsy, ht,
          goVersioned_skip E text bad v _ hskip]
  · intro E P1 P2 b pre post n e
    simp only [detectedEntries, List.filterMap_append, List.filterMap_cons,
      List.filterMap_nil, List.append_nil, List.append_assoc]
    cases e with
    | none => simp
    | some td =>
      by_cases hms : (techMatches E P1 P2 b td).1 = [] <;> simp [hms]

/-- Witness for C7 at concrete inputs. -/
theorem C7_witness :
    checkPattern subEngine "" (.pstr "x") = false ∧
    checkPattern subEngine "t" (.pstr "") = false ∧
    checkPattern subEngine "t" (.plist ["(", "t"]) =
      checkPattern subEngine "t" (.plist ["t"]) ∧
    checkPatternWithVersion subEngine "t" (.pdict [("(", "v"), ("t", "")]) =
      checkPatternWithVersion subEngine "t" (.pdict [("t", "")]) ∧
    detectedEntries subEngine noParse noParse demoBundle
        ([] ++ [("T", some demoTech)] ++ []) =
      detectedEntries subEngine noParse noParse demoBundle [] ++
        detectedEntries subEngine noParse noParse demoBundle [("T", some demoTech)] ++
        detectedEntries subEngine noParse noParse demoBundle [] := by
  refine ⟨?_, ?_, ?_, ?_, ?_⟩
  · exact (C7_robust.1 subEngine (.pstr "x")).1
  · exact (C7_robust.2.1 subEngine "t" (.pstr "") (by decide)).1
  · exact C7_robust.2.2.1 subEngine "t" "(" ["t"] rfl
  · exact C7_robust.2.2.2.1 subEngine "t" "(" "v" [("t", "")] rfl
  · exact C7_robust.2.2.2.2 subEngine noParse noParse demoBundle [] [] "T" (some demoTech)


/-! Deduplication lemmas for the group-id set. -/

theorem insertDedupNat_nodup {l : List Nat} (h : l.Nodup) (x : Nat) :
    (insertDedupNat l x).Nodup := by
  unfold insertDedupNat
  by_cases hx : l.contains x
  · rw [if_pos hx]
    exact h
  · rw [if_neg hx]
    have hx2 : x ∉ l := by simpa using hx
    simp [List.nodup_append, h, hx2]

theorem foldl_insertDedupNat_nodup (gl : List Nat) (acc : List Nat)
    (hacc : acc.Nodup) : (gl.foldl insertDedupNat acc).Nodup := by
  induction gl generalizing acc with
  | nil => exact hacc
  | cons g gs ih => exact ih _ (insertDedupNat_nodup hacc g)

theorem collectCats_go_nodup (ctable : List (String × CatEntry))
    (ids : List Nat) (acc : List String × List Nat) (h : acc.2.Nodup) :
    (ids.foldl (collectCatsStep ctable) acc).2.Nodup := by
  induction ids generalizing acc with
  | nil => exact h
  | cons i is ih =>
    refine ih _ ?_
    unfold collectCatsStep
    cases halist : alistGet ctable (toString i) with
    | none => exact h
    | some ce =>
      cases ce with
      | cdict nm gl => exact foldl_insertDedupNat_nodup gl _ h
      | cother => exact h

theorem collectCats_nodup (ctable : List (String × CatEntry)) (ids : List Nat) :
    (collectCats ctable ids).2.Nodup :=
  collectCats_go_nodup ctable ids ([], []) List.nodup_nil

/-- Claim C8 (amended): the group ids aggregated for a technology are
deduplicated, so no group id contributes twice; the group-name list is
duplicate-free whenever the groups table resolves distinct ids to distinct
names, but two distinct ids sharing a display name yield a duplicated name
(see the counterexample). -/
theorem C8_amended (E : RegexEngine) (P1 P2 : HtmlParser) (d : TechDetector)
    (b : SignalBundle)
    (hinj : ∀ i j s, resolveGroupName d.groups i = some s →
      resolveGroupName d.groups j = some s → i = j) :
    (∀ ids : List Nat, (collectCats d.categories ids).2.Nodup) ∧
    ∀ r ∈ (TechDetector.analyze E P1 P2 d b).2, r.groups.Nodup := by
  refine ⟨fun ids => collectCats_nodup _ _, ?_⟩
  intro r hr
  have hr2 : r ∈ (detectedEntries E P1 P2 b d.technologies).map
      (buildResult d.technologies d.categories d.groups) := mem_pySortDesc.mp hr
  obtain ⟨ent, hent, rfl⟩ := List.mem_map.mp hr2
  show ((collectCats d.categories (techCats d.technologies ent.1)).2.filterMap
    (resolveGroupName d.groups)).Nodup
  exact List.Nodup.filterMap
    (fun i j s hi hj => hinj i j s hi hj)
    (collectCats_nodup _ _)

/-- Claim C8 counterexample: with categories `1 -> groups [1, 2]` and both
group ids resolving to the display name `X`, the single Detection's group
list is `[X, X]` — the name appears twice even though the ids were
deduplicated, refuting the claim that no group name appears twice when two
distinct ids share a display name. -/
theorem C8_cex :
    (TechDetector.analyze subEngine noParse noParse dupGroupsDetector demoBundle).2 =
      [{ name := "T", confidence := 10, versions := [], categories := ["C"],
         groups := ["X", "X"] }] ∧
    ¬ (["X", "X"] : List String).Nodup :=
  ⟨rfl, by decide⟩

/-- Witness for C8 (amended) on the demo detector, whose groups table is
empty and hence trivially injective. -/
theorem C8_amended_witness :
    (TechDetector.analyze subEngine noParse noParse demoDetector demoBundle).2.all
      (fun r => decide r.groups.Nodup) = true := by
  have h := C8_amended subEngine noParse noParse demoDetector demoBundle
    (by intro i j s hi hj; simp [resolveGroupName, alistGet, demoDetector] at hi)
  rw [List.all_eq_true]
  intro r hr
  exact decide_eq_true (h.2 r hr)


/-! Lemmas on the pattern-strip worker. -/

theorem stripFrom_cons_ne (c : Char) (cs : List Char)
    (hne : ¬ (c = '\\' ∧ cs.head? = some ';')) :
    stripFrom (c :: cs) = c :: stripFrom cs := by
  rw [stripFrom.eq_def]
  split
  · rename_i heq
    cases heq
  · rename_i rest heq
    injection heq with h1 h2
    exact absurd ⟨h1, by rw [h2]; rfl⟩ hne
  · rename_i c2 cs2 hne2 heq
    injection heq with h1 h2
    rw [h1, h2]

theorem hasBSsemi_cons_false {c : Char} {cs : List Char}
    (h : hasBSsemi (c :: cs) = false) :
    ¬ (c = '\\' ∧ cs.head? = some ';') ∧ hasBSsemi cs = false := by
  unfold hasBSsemi at h
  by_cases hc : c = '\\' ∧ cs.head? = some ';'
  · rw [if_pos hc] at h
    cases h
  · rw [if_neg hc] at h
    exact ⟨hc, h⟩

theorem stripFrom_no_newline :
    ∀ cs : List Char, cs.contains '\n' = false →
      stripFrom cs = takeUntilBSsemi cs := by
  intro cs
  induction cs using stripFrom.induct with
  | case1 => intro h; rfl
  | case2 rest h1 h2 ih =>
    intro h
    simp only [List.contains_cons, Bool.or_eq_false_iff] at h
    rw [h.2.2] at h1
    cases h1
  | case3 rest h1 h2 =>
    intro h
    simp only [List.contains_cons, Bool.or_eq_false_iff] at h
    rw [h.2.2] at h1
    cases h1
  | case4 rest h1 =>
    intro h
    simp [stripFrom, h1, takeUntilBSsemi]
    intro hmem
    exact absurd hmem (by simpa using h1)
  | case5 c cs hne ih =>
    intro h
    simp only [List.contains_cons, Bool.or_eq_false_iff] at h
    have hne2 : ¬ (c = '\\' ∧ cs.head? = some ';') := by
      rintro ⟨rfl, hh⟩
      cases cs with
      | nil => cases hh
      | cons c2 cs2 =>
        injection hh with hh2
        exact hne cs2 rfl (by rw [hh2])
    rw [stripFrom_cons_ne c cs hne2, takeUntilBSsemi, if_neg hne2, ih h.2]

theorem stripFrom_id :
    ∀ cs : List Char, hasBSsemi cs = false → stripFrom cs = cs := by
  intro cs
  induction cs with
  | nil => intro h; rfl
  | cons c cs2 ih =>
    intro h
    obtain ⟨hne, hrest⟩ := hasBSsemi_cons_false h
    rw [stripFrom_cons_ne c cs2 hne, ih hrest]

theorem stripFrom_append (pl junk : List Char) (hp : hasBSsemi pl = false)
    (hj : junk.contains '\n' = false) :
    stripFrom (pl ++ '\\' :: ';' :: junk) = pl := by
  induction pl with
  | nil =>
    rw [List.nil_append]
    simp [stripFrom, hj]
    intro hmem
    exact absurd hmem (by simpa using hj)
  | cons c cs ih =>
    obtain ⟨hne, hrest⟩ := hasBSsemi_cons_false hp
    rw [List.cons_append, stripFrom_cons_ne, ih hrest]
    rintro ⟨rfl, hh⟩
    cases cs with
    | nil => simp at hh
    | cons c2 cs2 =>
      simp at hh
      exact hne ⟨rfl, by simp [hh]⟩
/-- Claim C9 (amended): for regex strings containing no newline, the suffix
from the first `\\;` is stripped before compilation and has no effect on
the match outcome; a newline in the suffix defeats the strip (the `$` in
`re.sub(r"\\\\;.*$", ...)` does not reach past a newline), see the
counterexample. -/
theorem C9_amended (s p junk text : String) (E : RegexEngine)
    (hs : s.data.contains '\n' = false)
    (hp : hasBSsemi p.data = false) (hpne : p ≠ "")
    (hj : junk.data.contains '\n' = false) :
    stripWappalyzerPattern s = specStripPattern s ∧
    stripWappalyzerPattern (p ++ "\\;" ++ junk) = p ∧
    checkPattern E text (.pstr (p ++ "\\;" ++ junk)) =
      checkPattern E text (.pstr p) := by
  have hdata : (p ++ "\\;" ++ junk).data = p.data ++ '\\' :: ';' :: junk.data := by
    simp
  have hstrip : stripWappalyzerPattern (p ++ "\\;" ++ junk) = p := by
    unfold stripWappalyzerPattern
    rw [hdata, stripFrom_append p.data junk.data hp hj]
  have hstrip2 : stripWappalyzerPattern p = p := by
    unfold stripWappalyzerPattern
    rw [stripFrom_id p.data hp]
  have hne1 : (p ++ "\\;" ++ junk) ≠ "" := by
    intro hc
    have := congrArg String.data hc
    rw [hdata] at this
    simp at this
  refine ⟨?_, hstrip, ?_⟩
  · unfold stripWappalyzerPattern specStripPattern
    rw [stripFrom_no_newline s.data hs]
  · by_cases ht : text = ""
    · simp [checkPattern, ht]
    · simp only [checkPattern, patFalsy]
      rw [if_neg (by simp [ht, hne1]), if_neg (by simp [ht, hpne])]
      simp only [goPatternList, hstrip, hstrip2]

/-- Claim C9 counterexample: on the pattern `x\\;y\nz` — a `\\;` suffix
containing a newline — `_strip_wappalyzer_pattern` strips nothing, while
the specification says everything from the `\\;` on is removed. -/
theorem C9_cex :
    stripWappalyzerPattern "x\\;y\nz" = "x\\;y\nz" ∧
    specStripPattern "x\\;y\nz" = "x" ∧
    ("x\\;y\nz" : String) ≠ "x" :=
  ⟨by decide, by decide, by decide⟩

/-- Witness for C9 (amended) at concrete inputs. -/
theorem C9_amended_witness :
    stripWappalyzerPattern "a\\d" = specStripPattern "a\\d" ∧
    stripWappalyzerPattern ("nginx" ++ "\\;" ++ "version") = "nginx" ∧
    checkPattern subEngine "t" (.pstr ("nginx" ++ "\\;" ++ "version")) =
      checkPattern subEngine "t" (.pstr "nginx") := by
  have h := C9_amended "a\\d" "nginx" "version" "t" subEngine
    (by decide) (by decide) (by decide) (by decide)
  exact h


/-- Claim C10: `detect_technologies` input sources are mutually exclusive
with fixed precedence: a truthy (non-empty) `har_path` delegates to HAR
analysis, ignoring `json_data` and every direct keyword argument; otherwise
a non-`None` `json_data` delegates to `analyze_json`, ignoring the keyword
arguments; and `analyze_json` on a dict containing a `har_path` key
delegates to HAR analysis of `str(...)` of that value, ignoring every other
key. -/
theorem C10_precedence (E : RegexEngine) (P1 P2 : HtmlParser)
    (fs : String → Option Json) (d : TechDetector)
    (url html : String) (headers cookies : List (String × String))
    (scripts : List String) (meta : List (String × String))
    (dns : List (String × List String)) (certIssuer : String)
    (s : String) (hs : s ≠ "") (jd : Option (List (String × Json)))
    (j : List (String × Json)) (v : Json)
    (hv : alistGet j "har_path" = some v) :
    detectTechnologies E P1 P2 fs d url html headers cookies scripts meta dns
        certIssuer (some s) jd = TechDetector.analyzeHar E P1 P2 fs d s ∧
    detectTechnologies E P1 P2 fs d url html headers cookies scripts meta dns
        certIssuer none (some j) = TechDetector.analyzeJson E P1 P2 fs d j ∧
    detectTechnologies E P1 P2 fs d url html headers cookies scripts meta dns
        certIssuer (some "") (some j) =
      TechDetector.analyzeJson E P1 P2 fs d j ∧
    TechDetector.analyzeJson E P1 P2 fs d j =
      TechDetector.analyzeHar E P1 P2 fs d (pyStr v) := by
  refine ⟨?_, ?_, ?_, ?_⟩
  · simp [detectTechnologies, optTruthy, hs]
  · simp [detectTechnologies, optTruthy]
  · simp [detectTechnologies, optTruthy]
  · unfold TechDetector.analyzeJson
    rw [hv]

/-- Witness for C10 at concrete inputs. -/
theorem C10_witness :
    detectTechnologies subEngine noParse noParse (fun _ => none) demoDetector
        "u" "h" [] [] [] [] [] "" (some "f.har") (some [("url", .str "u")]) =
      TechDetector.analyzeHar subEngine noParse noParse (fun _ => none)
        demoDetector "f.har" ∧
    TechDetector.analyzeJson subEngine noParse noParse (fun _ => none)
        demoDetector [("har_path", .str "f.har"), ("url", .str "u")] =
      TechDetector.analyzeHar subEngine noParse noParse (fun _ => none)
        demoDetector (pyStr (.str "f.har")) := by
  have h := C10_precedence subEngine noParse noParse (fun _ => none) demoDetector
    "u" "h" [] [] [] [] [] "" "f.har" (by decide)
    (some [("url", .str "u")])
    [("har_path", .str "f.har"), ("url", .str "u")] (.str "f.har") rfl
  exact ⟨h.1, h.2.2.2⟩

/-- Witness for C4 on the demo detector. -/
theorem C4_witness :
    (TechDetector.analyze subEngine noParse noParse demoDetector demoBundle).2.any
      (fun r => r.name == "T") = true := by
  have h := C4_confidence subEngine noParse noParse demoBundle demoDetector "T"
    demoTech (by decide) (by decide)
  exact h.1.mpr (by decide)

end PyWap
